import Mathlib

/-!
Shallow embedding of the webhook-authentication and payload-normalization
core of the `mailgun-inbound` repository (files `src/unnamed/part_001` and
`src/index.js`), together with theorems settling the frozen claims.

Modelling conventions:
* JavaScript strings are Lean `String`s; an absent (`undefined`) string field
  is `Option.none`.
* JavaScript host primitives that the code calls but does not define are
  parameters of an environment record and are quantified over in the
  theorems: `Date.now()` (`now`, `dateNowMs`, `nowSecF`), `Number(...)`
  (`toNum`, with `none` modelling `NaN`), `crypto.createHmac(...).digest("hex")`
  (`hmacHex`), `JSON.parse` (`jsonParse`, with `none` modelling a parse
  error), `new Date(...).toISOString()` (`iso1`, `iso2`, `msToIso`, `nowIso`).
* Dynamically-typed JSON values appearing in header lists and loosely-typed
  body fields are modelled by the inductive `Jv` (the object form is not
  needed by any code path the claims exercise).
* Thrown exceptions are modelled with `Except`; a JavaScript `try/catch`
  is a `match` on the `Except` value.
-/

/-- Model of a JSON/JavaScript value as it can appear in a parsed webhook
body or header list.  `undef` models JavaScript `undefined` (an absent
property). -/
inductive Jv where
  | undef
  | nul
  | boolean (b : Bool)
  | num (n : Int)
  | str (s : String)
  | arr (xs : List Jv)
deriving Repr

/-- JavaScript truthiness for an optional string: `undefined` and the empty
string are falsy (`!v` is true). -/
def strFalsy : Option String → Bool
  | none => true
  | some s => s.isEmpty

/-- JavaScript `a || b` on optional strings: returns `b` when `a` is falsy. -/
def jsOrStr (a b : Option String) : Option String :=
  if strFalsy a then b else a

/-- JavaScript truthiness of a `Jv` value. -/
def jvTruthy : Jv → Bool
  | Jv.undef => false
  | Jv.nul => false
  | Jv.boolean b => b
  | Jv.num n => n != 0
  | Jv.str s => !s.isEmpty
  | Jv.arr _ => true

/-- JavaScript `a || b` on dynamic values. -/
def jvOr (a b : Jv) : Jv :=
  if jvTruthy a then a else b

/-- Result of evaluating `v.length > 0` in JavaScript: arrays and strings
have a numeric `length`; for every other value in `Jv` the property is
`undefined` and `undefined > 0` is false. -/
def jvLenPos : Jv → Bool
  | Jv.arr xs => xs.length > 0
  | Jv.str s => s.length > 0
  | _ => false

/-- UTF-8 byte sequence of one character, as natural numbers
(the encoding used by `Buffer.from(string)`). -/
def utf8Bytes (c : Char) : List Nat :=
  let n := c.toNat
  if n < 0x80 then [n]
  else if n < 0x800 then
    [0xC0 ||| (n >>> 6), 0x80 ||| (n &&& 0x3F)]
  else if n < 0x10000 then
    [0xE0 ||| (n >>> 12), 0x80 ||| ((n >>> 6) &&& 0x3F), 0x80 ||| (n &&& 0x3F)]
  else
    [0xF0 ||| (n >>> 18), 0x80 ||| ((n >>> 12) &&& 0x3F),
     0x80 ||| ((n >>> 6) &&& 0x3F), 0x80 ||| (n &&& 0x3F)]

/-- Byte representation of a string, i.e. `Buffer.from(s)` in the source:
the UTF-8 encoding of the string. -/
def bufFrom (s : String) : List Nat :=
  s.data.flatMap utf8Bytes

/-- One step of the constant-time accumulator: or-in the xor of a byte
pair.  This is the standard constant-time-compare kernel: the accumulator
is zero at the end iff every pair was equal, and every pair is visited
regardless of earlier mismatches (no early exit). -/
def ctStep (acc : Nat) (p : Nat × Nat) : Nat :=
  acc ||| (p.1 ^^^ p.2)

/-- Constant-time difference accumulator over two equal-length byte lists. -/
def ctFoldDiff (a b : List Nat) : Nat :=
  (a.zip b).foldl ctStep 0

/-- Model of `crypto.timingSafeEqual(Buffer.from(a), Buffer.from(b))`:
throws (here `Except.error`) when the byte lengths differ, otherwise
returns whether the buffers are equal, computed by a full fold with no
early exit. -/
def timingSafeEqual (a b : List Nat) : Except Unit Bool :=
  if a.length = b.length then Except.ok (decide (ctFoldDiff a b = 0))
  else Except.error ()

/-- Value of the `signature` argument reaching `verifyMailgunSignature`.
In the event-webhook shape the raw body's `signature` property is an
object `{token, timestamp, signature}`; in the inbound shape it is a hex
string.  The fallback chain in `verifyRequestSignature` / `mailgunWebhook`
can pass either form through. -/
inductive SigVal where
  | str (s : String)
  | obj (token timestamp signature : Option String)
deriving Repr, DecidableEq

/-- JavaScript falsiness of the `signature` argument: absent or the empty
string; an object is always truthy. -/
def sigFalsy : Option SigVal → Bool
  | none => true
  | some (SigVal.str s) => s.isEmpty
  | some (SigVal.obj _ _ _) => false

/-- Diagnostic category logged by `verifyMailgunSignature` on each failing
check (the `console.error` calls of `src/unnamed/part_001` lines 11-55);
`cryptoError` is the catch branch around the digest comparison. -/
inductive VerifyLog where
  | keyMissing
  | missingParams
  | invalidTimestamp
  | expired
  | cryptoError
deriving Repr, DecidableEq

/-- Host primitives used by `verifyMailgunSignature`:
`now` is `Math.floor(Date.now() / 1000)`, `toNum` is `Number(...)` on a
string (with `none` for `NaN`), and `hmacHex` is
`crypto.createHmac("sha256", key).update(msg).digest("hex")`. -/
structure VerifyEnv where
  now : Int
  toNum : String → Option Int
  hmacHex : String → String → String

/-- Translation of `verifyMailgunSignature` (src/unnamed/part_001 lines
11-55) returning both the boolean result and the diagnostic log category
of the first failing check, in source order: missing signing key, missing
parameters, unparseable timestamp, expired timestamp, then the HMAC
comparison wrapped in try/catch. -/
def verifyMailgunSignatureL (env : VerifyEnv) (token timestamp : Option String)
    (signature : Option SigVal) (signingKey : Option String) :
    Bool × Option VerifyLog :=
  if strFalsy signingKey then (false, some VerifyLog.keyMissing)
  else if strFalsy token || strFalsy timestamp || sigFalsy signature then
    (false, some VerifyLog.missingParams)
  else
    match env.toNum (timestamp.getD "") with
    | none => (false, some VerifyLog.invalidTimestamp)
    | some requestTime =>
      if 900 < (env.now - requestTime).natAbs then
        (false, some VerifyLog.expired)
      else
        let hmac := env.hmacHex (signingKey.getD "")
          (timestamp.getD "" ++ token.getD "")
        match signature with
        | some (SigVal.str s) =>
          match timingSafeEqual (bufFrom hmac) (bufFrom s) with
          | Except.ok b => (b, none)
          | Except.error _ => (false, some VerifyLog.cryptoError)
        | _ => (false, some VerifyLog.cryptoError)

/-- Boolean result of `verifyMailgunSignature`. -/
def verifyMailgunSignature (env : VerifyEnv) (token timestamp : Option String)
    (signature : Option SigVal) (signingKey : Option String) : Bool :=
  (verifyMailgunSignatureL env token timestamp signature signingKey).1

/-- Outcome of the comparison step in isolation: the digest and supplied
signature compared as byte buffers by `timingSafeEqual`, with a thrown
length-mismatch error caught and turned into `false`. -/
def hmacCompare (hmac sig : String) : Bool :=
  match timingSafeEqual (bufFrom hmac) (bufFrom sig) with
  | Except.ok b => b
  | Except.error _ => false

/-- Whitespace set of JavaScript `String.prototype.trim`. -/
def jsWhitespace (c : Char) : Bool :=
  c = ' ' || c = '\t' || c = '\n' || c = '\r' ||
  c = Char.ofNat 0x0B || c = Char.ofNat 0x0C || c = Char.ofNat 0xA0 ||
  c = Char.ofNat 0x1680 || c = Char.ofNat 0x2028 || c = Char.ofNat 0x2029 ||
  c = Char.ofNat 0xFEFF

/-- JavaScript `s.trim()`: leading and trailing whitespace removed. -/
def jsTrim (s : String) : String :=
  String.mk
    (((s.data.dropWhile jsWhitespace).reverse.dropWhile jsWhitespace).reverse)

/-- JavaScript `s.toLowerCase()` restricted to the ASCII mapping of
`Char.toLower`. -/
def jsToLower (s : String) : String :=
  String.mk (s.data.map Char.toLower)

/-- Whether a character is matched by the regular-expression wildcard `.`
without the dot-all flag (as in `/<(.+?)>/`): every character except the
line terminators. -/
def dotChar (c : Char) : Bool :=
  !(c = '\n' || c = '\r' || c = Char.ofNat 0x2028 || c = Char.ofNat 0x2029)

/-- Characters strictly before the first `'>'`, provided every one of them
is matched by `.`; `none` when no such `'>'` exists. -/
def scanGt : List Char → Option (List Char)
  | [] => none
  | c :: rest =>
    if c = '>' then some []
    else if dotChar c then (scanGt rest).map (fun p => c :: p)
    else none

/-- Interior of a lazy `(.+?)>` match starting right after an opening
`'<'`: at least one `.`-matched character followed by the earliest
possible closing `'>'`. -/
def interiorFrom : List Char → Option (List Char)
  | [] => none
  | d :: rest => if dotChar d then (scanGt rest).map (fun p => d :: p) else none

/-- Capture group of the first match of `/<(.+?)>/` in the character list:
the leftmost `'<'` from which a lazy nonempty interior and a closing `'>'`
can be found (later `'<'` positions are tried when an earlier one cannot
complete, exactly as the regex engine advances its start position). -/
def angleInterior : List Char → Option (List Char)
  | [] => none
  | c :: rest =>
    if c = '<' then
      match interiorFrom rest with
      | some int => some int
      | none => angleInterior rest
    else angleInterior rest

/-- Translation of `extractEmail` (src/unnamed/part_001 lines 312-316):
falsy or non-string input yields the empty string; otherwise the trimmed
capture of `/<(.+?)>/` when it matches, else the trimmed whole input. -/
def extractEmail (value : Jv) : String :=
  match value with
  | Jv.str s =>
    if s.isEmpty then ""
    else
      match angleInterior s.data with
      | some int => jsTrim (String.mk int)
      | none => jsTrim s
  | _ => ""

/-- JavaScript `String.prototype.split` with a single-character separator,
over the character list: `""` yields one empty part, separators at the
edges produce empty parts. -/
def splitOnChar (sep : Char) : List Char → List (List Char)
  | [] => [[]]
  | c :: rest =>
    let r := splitOnChar sep rest
    if c = sep then [] :: r
    else
      match r with
      | h :: t => (c :: h) :: t
      | [] => [[c]]

/-- Last element of a split, i.e. `arr.pop()` on the nonempty result of
`split`. -/
def lastPart (l : List (List Char)) : List Char :=
  match l.getLast? with
  | some x => x
  | none => []

/-- Translation of `extractEmails` (src/unnamed/part_001 lines 323-326):
split on commas, trim, extract each address, drop falsy (empty) results. -/
def extractEmails (value : Jv) : List String :=
  match value with
  | Jv.str s =>
    if s.isEmpty then []
    else
      ((splitOnChar ',' s.data).map (fun e =>
        extractEmail (Jv.str (jsTrim (String.mk e))))).filter
        (fun r => !r.isEmpty)
  | _ => []

/-- Result of `value.replace(/^<|>$/g, '')`: one leading `'<'` and one
trailing `'>'` removed when present. -/
def stripAngles (s : String) : String :=
  let l1 := match s.data with
    | '<' :: rest => rest
    | l => l
  let l2 := match l1.reverse with
    | '>' :: rest => rest.reverse
    | _ => l1
  String.mk l2

/-- Translation of `cleanMessageId` (src/unnamed/part_001 lines 333-336):
falsy or non-string input yields `null`; otherwise the bracket-stripped,
trimmed value, or `null` when that is empty. -/
def cleanMessageId (value : Jv) : Option String :=
  match value with
  | Jv.str s =>
    if s.isEmpty then none
    else
      let r := jsTrim (stripAngles s)
      if r.isEmpty then none else some r
  | _ => none

/-- Translation of `parseHeaders` (src/unnamed/part_001 lines 297-305).
`jsonParse` models the host `JSON.parse`, with `none` for a thrown parse
error (the catch branch returns `[]`).  A falsy non-array argument makes
the source parse the literal `"[]"`, deterministically `[]`; a truthy
non-array non-string argument (number, `true`) is stringified by
`JSON.parse` coercion and re-parsed to itself. -/
def parseHeaders (jsonParse : String → Option Jv) (headers : Jv) : Jv :=
  match headers with
  | Jv.arr xs => Jv.arr xs
  | Jv.str s =>
    if s.isEmpty then Jv.arr []
    else
      match jsonParse s with
      | some v => v
      | none => Jv.arr []
  | v => if jvTruthy v then v else Jv.arr []

mutual

/-- JavaScript `String(v)` for the modelled value forms, used when a parsed
header entry's first element becomes an object property key. -/
def jvToKeyString : Jv → String
  | Jv.undef => "undefined"
  | Jv.nul => "null"
  | Jv.boolean b => if b then "true" else "false"
  | Jv.num n => toString n
  | Jv.str s => s
  | Jv.arr xs => jvArrJoin xs

/-- `Array.prototype.toString`: elements stringified recursively (with
`null`/`undefined` rendered empty) and joined by commas. -/
def jvArrJoin : List Jv → String
  | [] => ""
  | x :: xs =>
    let hd := match x with
      | Jv.undef => ""
      | Jv.nul => ""
      | v => jvToKeyString v
    match xs with
    | [] => hd
    | _ => hd ++ "," ++ jvArrJoin xs

end

/-- JavaScript object property update `o[k] = v` on an insertion-ordered
association list: an existing key keeps its position and gets the new
value, a new key is appended. -/
def setAssoc (acc : List (String × Jv)) (k : String) (v : Jv) :
    List (String × Jv) :=
  if acc.any (fun p => p.1 = k) then
    acc.map (fun p => if p.1 = k then (k, v) else p)
  else acc ++ [(k, v)]

/-- JavaScript property read `o[k]`, with `undefined` for a missing key. -/
def getProp (o : List (String × Jv)) (k : String) : Jv :=
  match o.find? (fun p => p.1 = k) with
  | some p => p.2
  | none => Jv.undef

/-- Body of the `forEach` callback building `headersObj`
(src/unnamed/part_001 lines 438-443): only array entries of length at
least two contribute, destructured into key and value. -/
def addHeader (acc : List (String × Jv)) (h : Jv) : List (String × Jv) :=
  match h with
  | Jv.arr (k :: v :: _) => setAssoc acc (jvToKeyString k) v
  | _ => acc

/-- The `headersObj` construction of `processEmailData`
(src/unnamed/part_001 lines 435-444): when the parsed value is truthy with
positive `length` the source calls `.forEach` on it — a thrown `TypeError`
(`Except.error`) when it is not an array (e.g. a JSON string). -/
def buildHeadersObj (parsedHeaders : Jv) : Except Unit (List (String × Jv)) :=
  if jvTruthy parsedHeaders && jvLenPos parsedHeaders then
    match parsedHeaders with
    | Jv.arr xs => Except.ok (xs.foldl addHeader [])
    | _ => Except.error ()
  else Except.ok []

/-- Uploaded-file descriptor as provided to `processEmailData` by the host
framework (multer): the fields the source reads, each possibly absent. -/
structure FileDesc where
  originalname : Option String
  mimetype : Option String
  size : Option Int
  encoding : Option String
  fieldname : Option String
  buffer : Option (List Nat)
deriving Repr, DecidableEq

/-- Attachment record built by `processEmailData`
(src/unnamed/part_001 lines 421-432). -/
structure AttachmentMeta where
  filename : String
  originalname : Option String
  mimetype : String
  size : Int
  extension : Option String
  encoding : Option String
  fieldname : Option String
  buffer : Option (List Nat)
deriving Repr, DecidableEq

/-- Translation of the attachment-mapping callback of `processEmailData`
(src/unnamed/part_001 lines 421-432).  `dateNowMs` is the `Date.now()`
read used in the synthesized placeholder filename; `idx` is the map
index.  The `extension` is the lower-cased text after the final `.` of a
truthy `originalname` (`split('.').pop().toLowerCase()`), and `null`
otherwise. -/
def mkAttachment (dateNowMs : Int) (idx : Nat) (f : FileDesc) :
    AttachmentMeta :=
  let nameFalsy := strFalsy f.originalname
  let nm := f.originalname.getD ""
  { filename :=
      if nameFalsy then "attachment-" ++ toString dateNowMs ++ "-" ++ toString idx
      else nm
    originalname := if nameFalsy then none else f.originalname
    mimetype := if strFalsy f.mimetype then "application/octet-stream"
      else f.mimetype.getD ""
    size := f.size.getD 0
    extension :=
      if nameFalsy then none
      else some (jsToLower (String.mk (lastPart (splitOnChar '.' nm.data))))
    encoding := if strFalsy f.encoding then none else f.encoding
    fieldname := if strFalsy f.fieldname then none else f.fieldname
    buffer := f.buffer }

/-- Raw inbound-webhook body fields destructured by `processEmailData`
(src/unnamed/part_001 lines 403-418).  Fields whose non-string forms are
claim-relevant (`sender`, `from`, `recipient`, `cc`, `message-headers`)
are dynamic values; the rest are optional strings as delivered by the
form-encoded inbound webhook. -/
structure InboundBody where
  token : Option String
  timestamp : Option String
  signature : Option String
  sender : Jv
  -- the raw body's `from` field (`from` is reserved in Lean)
  fromField : Jv
  subject : Option String
  recipient : Jv
  cc : Jv
  bodyPlain : Option String
  bodyHtml : Option String
  strippedText : Option String
  strippedHtml : Option String
  messageHeaders : Jv
  attachmentCount : Option String
deriving Repr

/-- Inbound request: `req.body` and `req.files`, each possibly absent. -/
structure ReqIn where
  body : Option InboundBody
  files : Option (List FileDesc)
deriving Repr

/-- Host primitives used by `processEmailData`: `JSON.parse`, `Number`,
the `Date.now()` read for placeholder filenames, and the two successive
`new Date().toISOString()` reads of lines 462 and 463, in evaluation
order. -/
structure ProcessEnv where
  jsonParse : String → Option Jv
  toNum : String → Option Int
  dateNowMs : Int
  iso1 : String
  iso2 : String

/-- Canonical email record built by `processEmailData`
(src/unnamed/part_001 lines 451-464).  `attachmentCount` is a JavaScript
number, with `none` modelling `NaN`. -/
structure EmailData where
  messageId : Option String
  -- the record's `from` field (`from` is reserved in Lean)
  fromAddr : String
  -- the record's `to` field (`to` is reserved in Lean)
  toList : List String
  cc : List String
  subject : String
  text : String
  html : String
  headers : List (String × Jv)
  attachments : List AttachmentMeta
  attachmentCount : Option Int
  receivedAt : String
  timestamp : String
deriving Repr

/-- Return value of `processEmailData` (src/unnamed/part_001 lines
466-471). -/
structure ProcessOut where
  emailData : EmailData
  token : Option String
  timestamp : Option String
  signature : Option String
deriving Repr

/-- Error raised by `processEmailData`: the explicit `Error` for a missing
request or body, or the uncaught `TypeError` from calling `.forEach` on a
non-array parsed header value. -/
inductive PErr where
  | invalidRequest
  | typeError
deriving Repr, DecidableEq

/-- Value of `Number(attachmentCount || 0)`: a falsy raw field (absent or
empty) coerces `0`; otherwise `Number` is applied to the raw string, and a
non-numeric string gives `NaN` (`none`). -/
def jsNumberCoerce (toNum : String → Option Int) (v : Option String) :
    Option Int :=
  match v with
  | none => some 0
  | some s => if s.isEmpty then some 0 else toNum s

/-- Successful result of `processEmailData` (src/unnamed/part_001 lines
421-471) once `headersObj` has been built: the attachment mapping, the
`cc`/`to` fallback chains, and the record literal of lines 451-464. -/
def mkEmailOut (env : ProcessEnv) (b : InboundBody)
    (files : Option (List FileDesc)) (headersObj : List (String × Jv)) :
    ProcessOut :=
  let processedAttachments :=
    (files.getD []).enum.map (fun p => mkAttachment env.dateNowMs p.1 p.2)
  let ccValue := jvOr (jvOr (jvOr b.cc (getProp headersObj "Cc"))
    (getProp headersObj "CC")) (Jv.str "")
  let toValue := jvOr (jvOr (jvOr b.recipient (getProp headersObj "To"))
    (getProp headersObj "TO")) (Jv.str "")
  { emailData :=
      { messageId := cleanMessageId (jvOr (jvOr
          (getProp headersObj "Message-ID")
          (getProp headersObj "Message-Id")) Jv.nul)
        fromAddr := extractEmail (jvOr b.sender b.fromField)
        toList := extractEmails toValue
        cc := extractEmails ccValue
        subject := b.subject.getD ""
        text := (jsOrStr b.bodyPlain b.strippedText).getD ""
        html := (jsOrStr b.bodyHtml b.strippedHtml).getD ""
        headers := headersObj
        attachments := processedAttachments
        attachmentCount := jsNumberCoerce env.toNum b.attachmentCount
        receivedAt := env.iso1
        timestamp := env.iso2 }
    token := b.token
    timestamp := b.timestamp
    signature := b.signature }

/-- Translation of `processEmailData` (src/unnamed/part_001 lines
398-472).  Throws (`Except.error`) exactly where the source throws: the
explicit guard on a missing request or body, and the `.forEach` call on a
truthy non-array parsed header value.  (The source maps the attachments
just before building `headersObj`; both steps are pure, so the record is
assembled in `mkEmailOut` once the header processing has not thrown.) -/
def processEmailData (env : ProcessEnv) (req : Option ReqIn) :
    Except PErr ProcessOut :=
  match req with
  | none => Except.error PErr.invalidRequest
  | some r =>
    match r.body with
    | none => Except.error PErr.invalidRequest
    | some b =>
      match buildHeadersObj (parseHeaders env.jsonParse b.messageHeaders) with
      | Except.error _ => Except.error PErr.typeError
      | Except.ok headersObj => Except.ok (mkEmailOut env b r.files headersObj)

/-- Timestamp value inside an event payload: epoch seconds as a JSON
number, or an already-rendered string. -/
inductive TsVal where
  | num (n : Int)
  | str (s : String)
deriving Repr, DecidableEq

/-- JavaScript truthiness of a timestamp value. -/
def tsTruthy : TsVal → Bool
  | TsVal.num n => n != 0
  | TsVal.str s => !s.isEmpty

/-- The `domain` property of an event payload: either a plain string or an
object carrying a `name` field. -/
inductive DomainVal where
  | str (s : String)
  | obj (name : Option String)
deriving Repr, DecidableEq

/-- The `delivery-status` object of an event payload, restricted to the
fields the source reads.  `code`, `tls`, `certificateVerified`,
`attemptNo` and `sessionSeconds` are loosely typed (numbers or booleans
upstream). -/
structure DeliveryStatus where
  code : Option Jv
  message : Option String
  description : Option String
  tls : Option Jv
  certificateVerified : Option Jv
  attemptNo : Option Jv
  sessionSeconds : Option Jv
deriving Repr

/-- The `client-info` object, restricted to the field the source reads
(`clientName`); the object is otherwise passed through verbatim. -/
structure ClientInfo where
  clientName : Option String
deriving Repr, DecidableEq

/-- The nested `event-data` object of an event-webhook body, restricted to
the properties `mailgunWebhook` reads.  `messageHeaderId` collapses the
`message.headers['message-id']` access path; an absent object at any level
of that path is `none`. -/
structure EventData where
  event : Option String
  id : Option String
  eventIdAlt : Option String
  recipient : Option String
  messageHeaderId : Option String
  messageIdKebab : Option String
  messageIdCamel : Option String
  url : Option String
  timestamp : Option TsVal
  domain : Option DomainVal
  deliveryStatus : Option DeliveryStatus
  reason : Option String
  failureReason : Option String
  clientInfo : Option ClientInfo
  geolocation : Option Jv
  severity : Option String
deriving Repr

/-- The `event-data` default `{}` used when the body carries none: every
property reads as `undefined`. -/
def emptyEventData : EventData :=
  { event := none, id := none, eventIdAlt := none, recipient := none
    messageHeaderId := none, messageIdKebab := none, messageIdCamel := none
    url := none, timestamp := none, domain := none, deliveryStatus := none
    reason := none, failureReason := none, clientInfo := none
    geolocation := none, severity := none }

/-- Parsed webhook body as read by `verifyRequestSignature` and
`mailgunWebhook`: the signature triple in either shape, plus the nested
`event-data` object for event webhooks. -/
structure WebhookBody where
  token : Option String
  timestamp : Option String
  signature : Option SigVal
  eventData : Option EventData
deriving Repr

/-- The token located by the fallback chain
`sig?.token || req.body.token` (src/unnamed/part_001 lines 370 and 521). -/
def extractedToken (b : WebhookBody) : Option String :=
  match b.signature with
  | some (SigVal.obj t _ _) => jsOrStr t b.token
  | _ => b.token

/-- The timestamp located by `sig?.timestamp || req.body.timestamp`
(src/unnamed/part_001 lines 371 and 522). -/
def extractedTimestamp (b : WebhookBody) : Option String :=
  match b.signature with
  | some (SigVal.obj _ ts _) => jsOrStr ts b.timestamp
  | _ => b.timestamp

/-- The signature located by `sig?.signature || req.body.signature`
(src/unnamed/part_001 lines 372 and 523): a nested object's truthy
`signature` string wins, otherwise the top-level `signature` value itself
(string, object, or absent) is passed through. -/
def extractedSignature (b : WebhookBody) : Option SigVal :=
  match b.signature with
  | some (SigVal.obj t ts s) =>
    if strFalsy s then some (SigVal.obj t ts s) else s.map SigVal.str
  | other => other

/-- Translation of `verifyRequestSignature` (src/unnamed/part_001 lines
362-375): a missing request or body yields `false`, otherwise the located
triple is delegated to `verifyMailgunSignature`. -/
def verifyRequestSignature (env : VerifyEnv) (body : Option WebhookBody)
    (signingKey : Option String) : Bool :=
  match body with
  | none => false
  | some b =>
    verifyMailgunSignature env (extractedToken b) (extractedTimestamp b)
      (extractedSignature b) signingKey

/-- JavaScript `v || null` on an optional string: a falsy value (absent or
empty) becomes `null`. -/
def jsOrNullStr (v : Option String) : Option String :=
  if strFalsy v then none else v

/-- JavaScript `v || null` on an optional dynamic value. -/
def jsOrNullJv (v : Option Jv) : Option Jv :=
  match v with
  | some x => if jvTruthy x then some x else none
  | none => none

/-- Resolution of `eventData.domain?.name || eventData.domain`
(src/unnamed/part_001 line 547): a truthy `name` string wins; otherwise
the raw `domain` value passes through. -/
def domainOf (ed : EventData) : Option DomainVal :=
  match ed.domain with
  | some (DomainVal.obj nm) =>
    if strFalsy nm then some (DomainVal.obj nm) else nm.map DomainVal.str
  | other => other

/-- Resolution of the `reason` fallback chain (src/unnamed/part_001 lines
548-551): delivery-status description, then `reason`, then
`failure-reason`, then `null`. -/
def reasonOf (ed : EventData) : Option String :=
  let desc := match ed.deliveryStatus with
    | some ds => ds.description
    | none => none
  jsOrNullStr (jsOrStr desc (jsOrStr ed.reason ed.failureReason))

/-- Record sent as the webhook's JSON response and returned to the caller
(`responseData`, src/unnamed/part_001 lines 568-694).  Branch-specific
properties that a given event kind does not set are `none`. -/
structure ResponseData where
  received : Bool
  event : String
  eventId : Option String
  recipient : Option String
  messageId : Option String
  timestamp : String
  domain : Option DomainVal
  correlationId : String
  processedAt : String
  status : Option String
  deliveredAt : Option String
  openedAt : Option String
  clickedAt : Option String
  bouncedAt : Option String
  complainedAt : Option String
  failedAt : Option String
  unsubscribedAt : Option String
  storedAt : Option String
  url : Option String
  reason : Option String
  severity : Option String
  deliveryStatus : Option DeliveryStatus
  clientInfo : Option ClientInfo
  geolocation : Option Jv
  userAgent : Option String
  fullEventData : Option EventData
deriving Repr

/-- Host primitives used by `mailgunWebhook` beyond those of the
verifier: `msToIso` is `new Date(ms).toISOString()`, `nowSecF` the
`Date.now() / 1000` fallback, `nowIso` the `processedAt` clock read and
`synthCorr` the synthesized correlation id (time plus random suffix). -/
structure HookEnv where
  verify : VerifyEnv
  msToIso : Int → String
  nowSecF : Int
  nowIso : String
  synthCorr : String

/-- Request seen by `mailgunWebhook`: the two correlation headers and the
parsed body. -/
structure HookReq where
  xRequestId : Option String
  xCorrelationId : Option String
  body : Option WebhookBody

/-- Outcome of `mailgunWebhook`: the HTTP status written to the response
and the value returned to the caller (`null` is `none`). -/
structure HookResult where
  httpStatus : Nat
  retVal : Option ResponseData
deriving Repr

/-- The eight event kinds with a dedicated `switch` case
(src/unnamed/part_001 lines 581-673). -/
def knownEvents : List String :=
  ["delivered", "opened", "clicked", "bounced", "complained", "failed",
   "unsubscribed", "stored"]

/-- Translation of `mailgunWebhook` (src/unnamed/part_001 lines 497-714):
request validation, signature verification over the located triple, common
field resolution, the `!event` validation guard, and the per-event-kind
`switch` with its `"unknown"` default.  The surrounding `try/catch` is not
modelled because no statement in the translated fragment can throw once
the body guard has run. -/
def mailgunWebhook (env : HookEnv) (req : HookReq)
    (signingKey : Option String) : HookResult :=
  let _correlationId :=
    (jsOrStr req.xRequestId (jsOrStr req.xCorrelationId
      (some env.synthCorr))).getD env.synthCorr
  match req.body with
  | none => { httpStatus := 400, retVal := none }
  | some b =>
    let token := extractedToken b
    let sigTimestamp := extractedTimestamp b
    let signature := extractedSignature b
    if !verifyMailgunSignature env.verify token sigTimestamp signature
        signingKey then
      { httpStatus := 401, retVal := none }
    else
      let ed := b.eventData.getD emptyEventData
      let eventId := jsOrNullStr (jsOrStr ed.id ed.eventIdAlt)
      let messageId := jsOrNullStr (jsOrStr ed.messageHeaderId
        (jsOrStr ed.messageIdKebab ed.messageIdCamel))
      let tsResolved := match ed.timestamp with
        | some v => if tsTruthy v then v else TsVal.num env.nowSecF
        | none => TsVal.num env.nowSecF
      let tsString := match tsResolved with
        | TsVal.num n => env.msToIso (n * 1000)
        | TsVal.str s => s
      match ed.event with
      | none => { httpStatus := 200, retVal := none }
      | some ev =>
        if ev.isEmpty then { httpStatus := 200, retVal := none }
        else
          let base : ResponseData :=
            { received := true, event := ev, eventId := eventId
              recipient := ed.recipient, messageId := messageId
              timestamp := tsString, domain := domainOf ed
              correlationId := _correlationId, processedAt := env.nowIso
              status := none, deliveredAt := none, openedAt := none
              clickedAt := none, bouncedAt := none, complainedAt := none
              failedAt := none, unsubscribedAt := none, storedAt := none
              url := none, reason := none, severity := none
              deliveryStatus := none, clientInfo := none
              geolocation := none, userAgent := none, fullEventData := none }
          let responseData :=
            if ev = "delivered" then
              { base with
                status := some "delivered"
                deliveredAt := some tsString
                deliveryStatus := ed.deliveryStatus.map (fun ds =>
                  { code := ds.code
                    message := ds.message
                    description := ds.description
                    tls := ds.tls
                    certificateVerified := ds.certificateVerified
                    attemptNo := none
                    sessionSeconds := none }) }
            else if ev = "opened" then
              { base with
                status := some "opened"
                openedAt := some tsString
                clientInfo := ed.clientInfo
                geolocation := jsOrNullJv ed.geolocation
                userAgent := match ed.clientInfo with
                  | some ci => jsOrNullStr ci.clientName
                  | none => none }
            else if ev = "clicked" then
              { base with
                status := some "clicked"
                url := ed.url
                clickedAt := some tsString
                clientInfo := ed.clientInfo
                geolocation := jsOrNullJv ed.geolocation }
            else if ev = "bounced" then
              { base with
                status := some "bounced"
                reason := reasonOf ed
                bouncedAt := some tsString
                deliveryStatus := ed.deliveryStatus.map (fun ds =>
                  { code := ds.code
                    message := ds.message
                    description := ds.description
                    tls := none
                    certificateVerified := none
                    attemptNo := ds.attemptNo
                    sessionSeconds := ds.sessionSeconds })
                severity := some (if strFalsy ed.severity then "permanent"
                  else ed.severity.getD "") }
            else if ev = "complained" then
              { base with
                status := some "complained"
                complainedAt := some tsString }
            else if ev = "failed" then
              { base with
                status := some "failed"
                reason := reasonOf ed
                failedAt := some tsString
                deliveryStatus := ed.deliveryStatus.map (fun ds =>
                  { code := ds.code
                    message := ds.message
                    description := ds.description
                    tls := none
                    certificateVerified := none
                    attemptNo := ds.attemptNo
                    sessionSeconds := ds.sessionSeconds }) }
            else if ev = "unsubscribed" then
              { base with
                status := some "unsubscribed"
                unsubscribedAt := some tsString }
            else if ev = "stored" then
              { base with
                status := some "stored"
                storedAt := some tsString }
            else
              { base with
                status := some "unknown"
                fullEventData := some ed }
          { httpStatus := 200, retVal := some responseData }

/-- Bitwise or of naturals is zero exactly when both operands are. -/
theorem natLorEqZero (m n : Nat) : m ||| n = 0 ↔ m = 0 ∧ n = 0 := by
  constructor
  · intro h
    refine ⟨Nat.zero_of_testBit_eq_false fun i => ?_,
      Nat.zero_of_testBit_eq_false fun i => ?_⟩
    · have hb := congrArg (fun x => Nat.testBit x i) h
      simp only [Nat.testBit_lor, Nat.zero_testBit, Bool.or_eq_false_iff] at hb
      exact hb.1
    · have hb := congrArg (fun x => Nat.testBit x i) h
      simp only [Nat.testBit_lor, Nat.zero_testBit, Bool.or_eq_false_iff] at hb
      exact hb.2
  · rintro ⟨rfl, rfl⟩
    rfl

/-- The constant-time fold is zero exactly when the accumulator is zero and
every visited byte pair is equal: no early exit, full traversal. -/
theorem ctFold_acc_zero (l : List (Nat × Nat)) :
    ∀ acc : Nat, (l.foldl ctStep acc = 0 ↔ acc = 0 ∧ ∀ p ∈ l, p.1 = p.2) := by
  induction l with
  | nil => intro acc; simp
  | cons p t ih =>
    intro acc
    simp only [List.foldl_cons, ctStep, ih, List.mem_cons]
    constructor
    · rintro ⟨h1, h2⟩
      rcases (natLorEqZero _ _).1 h1 with ⟨ha, hx⟩
      refine ⟨ha, fun q hq => ?_⟩
      rcases hq with hq | hq
      · subst hq; exact Nat.xor_eq_zero.1 hx
      · exact h2 q hq
    · rintro ⟨ha, h2⟩
      refine ⟨?_, fun q hq => h2 q (Or.inr hq)⟩
      rw [ha, Nat.xor_eq_zero.2 (h2 p (Or.inl rfl))]
      decide

/-- Pairwise equality over a zip of equal-length lists is list equality. -/
theorem zipPairsEq (a : List Nat) : ∀ (b : List Nat), a.length = b.length →
    ((∀ p ∈ a.zip b, p.1 = p.2) ↔ a = b) := by
  induction a with
  | nil =>
    intro b h
    cases b with
    | nil => simp
    | cons y ys => simp at h
  | cons x xs ih =>
    intro b h
    cases b with
    | nil => simp at h
    | cons y ys =>
      have ih2 := ih ys (by simpa using h)
      simp only [List.zip_cons_cons, List.mem_cons, List.cons.injEq]
      constructor
      · intro hp
        refine ⟨hp (x, y) (Or.inl rfl), ih2.1 fun p hp2 => hp p (Or.inr hp2)⟩
      · rintro ⟨rfl, rfl⟩
        intro p hp
        rcases hp with hp | hp
        · subst hp; rfl
        · exact (ih2.2 rfl) p hp

/-- On equal-length byte lists the constant-time accumulator decides
equality. -/
theorem ctFoldDiff_eq_zero (a b : List Nat) (h : a.length = b.length) :
    ctFoldDiff a b = 0 ↔ a = b := by
  unfold ctFoldDiff
  rw [ctFold_acc_zero]
  constructor
  · rintro ⟨_, hp⟩
    exact (zipPairsEq a b h).1 hp
  · intro he
    exact ⟨rfl, (zipPairsEq a b h).2 he⟩

/-- The caught comparison decides byte-level equality: equal-length
mismatches come out of the constant-time fold, and a length mismatch makes
`timingSafeEqual` throw, which the catch turns into `false`. -/
theorem hmacCompare_eq_decide (h s : String) :
    hmacCompare h s = decide (bufFrom h = bufFrom s) := by
  unfold hmacCompare timingSafeEqual
  by_cases hl : (bufFrom h).length = (bufFrom s).length
  · rw [if_pos hl]
    exact decide_eq_decide.2 (ctFoldDiff_eq_zero _ _ hl)
  · rw [if_neg hl]
    have hne : bufFrom h ≠ bufFrom s := fun he => hl (by rw [he])
    exact (decide_eq_false hne).symm

/-- A nonempty string is not `isEmpty`. -/
theorem isEmpty_false_of_ne (s : String) (h : s ≠ "") : s.isEmpty = false := by
  rw [Bool.eq_false_iff]
  intro hh
  exact h ((String.isEmpty_iff s).1 hh)

/-- With every precondition satisfied, `verifyMailgunSignature` reaches the
digest comparison: the result is the caught `timingSafeEqual` outcome and
the only possible diagnostic is the catch branch on a length mismatch. -/
theorem verify_reaches_compare
    (now n : Int) (toNum : String → Option Int) (hm : String → String → String)
    (t ts s k : String)
    (hk : k ≠ "") (ht : t ≠ "") (hts : ts ≠ "") (hs : s ≠ "")
    (hnum : toNum ts = some n) (hwin : (now - n).natAbs ≤ 900) :
    verifyMailgunSignatureL ⟨now, toNum, hm⟩ (some t) (some ts)
        (some (SigVal.str s)) (some k)
      = (hmacCompare (hm k (ts ++ t)) s,
         if (bufFrom (hm k (ts ++ t))).length = (bufFrom s).length then none
         else some VerifyLog.cryptoError) := by
  have hk' := isEmpty_false_of_ne k hk
  have ht' := isEmpty_false_of_ne t ht
  have hts' := isEmpty_false_of_ne ts hts
  have hs' := isEmpty_false_of_ne s hs
  have hnl : ¬ 900 < (now - n).natAbs := Nat.not_lt.2 hwin
  simp only [verifyMailgunSignatureL, strFalsy, sigFalsy, hk', ht', hts', hs',
    Bool.or_self, Bool.or_false, Bool.false_or, Bool.false_eq_true, if_false,
    Option.getD_some, hnum, if_neg hnl, hmacCompare, timingSafeEqual]
  by_cases hl : (bufFrom (hm k (ts ++ t))).length = (bufFrom s).length
  · rw [if_pos hl, if_pos hl]
  · rw [if_neg hl, if_neg hl]

/-- Claim C1: for every token, timestamp and signature, with a non-empty
signing key and a timestamp inside the replay window,
`verifyMailgunSignature` compares the computed digest to the supplied
signature using constant-time equality over the byte representations (the
full xor/or fold of `timingSafeEqual`, shown by `ctFold_acc_zero` and
`ctFoldDiff_eq_zero` to decide byte equality without early exit), and any
mismatch — including a signature of a different byte length, where the
underlying primitive throws and the catch yields `false` — gives `false`;
the function is total, so no exception escapes. -/
theorem claim_C1_constant_time_compare
    (now n : Int) (toNum : String → Option Int) (hm : String → String → String)
    (t ts s k : String)
    (hk : k ≠ "") (ht : t ≠ "") (hts : ts ≠ "") (hs : s ≠ "")
    (hnum : toNum ts = some n) (hwin : (now - n).natAbs ≤ 900) :
    verifyMailgunSignature ⟨now, toNum, hm⟩ (some t) (some ts)
        (some (SigVal.str s)) (some k)
      = decide (bufFrom (hm k (ts ++ t)) = bufFrom s)
    ∧ (bufFrom (hm k (ts ++ t)) ≠ bufFrom s →
        verifyMailgunSignature ⟨now, toNum, hm⟩ (some t) (some ts)
          (some (SigVal.str s)) (some k) = false)
    ∧ ((bufFrom (hm k (ts ++ t))).length ≠ (bufFrom s).length →
        verifyMailgunSignature ⟨now, toNum, hm⟩ (some t) (some ts)
          (some (SigVal.str s)) (some k) = false) := by
  have hL := verify_reaches_compare now n toNum hm t ts s k hk ht hts hs hnum hwin
  have h1 : verifyMailgunSignature ⟨now, toNum, hm⟩ (some t) (some ts)
      (some (SigVal.str s)) (some k) = hmacCompare (hm k (ts ++ t)) s := by
    unfold verifyMailgunSignature
    rw [hL]
  refine ⟨?_, ?_, ?_⟩
  · rw [h1, hmacCompare_eq_decide]
  · intro hne
    rw [h1, hmacCompare_eq_decide]
    exact decide_eq_false hne
  · intro hlen
    have hne : bufFrom (hm k (ts ++ t)) ≠ bufFrom s := fun he => hlen (by rw [he])
    rw [h1, hmacCompare_eq_decide]
    exact decide_eq_false hne

/-- Witness for claim C1 at a concrete input where the digest matches. -/
theorem claim_C1_witness :
    verifyMailgunSignature
        ⟨0, (fun v => if v = "0" then some 0 else none), fun _ _ => "d1"⟩
        (some "tok") (some "0") (some (SigVal.str "d1")) (some "k")
      = decide (bufFrom "d1" = bufFrom "d1") :=
  (claim_C1_constant_time_compare 0 0 (fun v => if v = "0" then some 0 else none)
    (fun _ _ => "d1") "tok" "0" "d1" "k"
    (by decide) (by decide) (by decide) (by decide) (by decide) (by decide)).1

/-- Claim C2: `verifyMailgunSignature` returns `false` whenever the signing
key is empty or absent, any of token, timestamp, signature is absent or
empty, or the timestamp string does not parse to a number; in those cases
the result does not depend on the HMAC primitive (no digest is computed),
the function is total (never throws), and the diagnostic logs identify the
checks in source order: missing key first, then missing parameters, then
the timestamp parse. -/
theorem claim_C2_precondition_short_circuit
    (now : Int) (toNum : String → Option Int)
    (t ts : Option String) (s : Option SigVal) (k : Option String)
    (h : strFalsy k = true ∨ strFalsy t = true ∨ strFalsy ts = true
      ∨ sigFalsy s = true ∨ toNum (ts.getD "") = none) :
    (∀ hm1 hm2 : String → String → String,
      verifyMailgunSignatureL ⟨now, toNum, hm1⟩ t ts s k
        = verifyMailgunSignatureL ⟨now, toNum, hm2⟩ t ts s k)
    ∧ (∀ hm, verifyMailgunSignature ⟨now, toNum, hm⟩ t ts s k = false)
    ∧ (strFalsy k = true → ∀ hm,
        (verifyMailgunSignatureL ⟨now, toNum, hm⟩ t ts s k).2
          = some VerifyLog.keyMissing)
    ∧ (strFalsy k = false →
        (strFalsy t || strFalsy ts || sigFalsy s) = true → ∀ hm,
        (verifyMailgunSignatureL ⟨now, toNum, hm⟩ t ts s k).2
          = some VerifyLog.missingParams)
    ∧ (strFalsy k = false →
        (strFalsy t || strFalsy ts || sigFalsy s) = false →
        toNum (ts.getD "") = none → ∀ hm,
        (verifyMailgunSignatureL ⟨now, toNum, hm⟩ t ts s k).2
          = some VerifyLog.invalidTimestamp) := by
  by_cases hk : strFalsy k = true
  · have he : ∀ hm, verifyMailgunSignatureL ⟨now, toNum, hm⟩ t ts s k
        = (false, some VerifyLog.keyMissing) := by
      intro hm
      simp [verifyMailgunSignatureL, hk]
    refine ⟨fun h1 h2 => by rw [he h1, he h2],
      fun hm => by unfold verifyMailgunSignature; rw [he hm],
      fun _ hm => by rw [he hm], fun hkf _ _ => ?_, fun hkf _ _ _ => ?_⟩
    · rw [hkf] at hk
      exact Bool.noConfusion hk
    · rw [hkf] at hk
      exact Bool.noConfusion hk
  · have hk' : strFalsy k = false := by
      revert hk
      cases strFalsy k <;> simp
    by_cases hp : (strFalsy t || strFalsy ts || sigFalsy s) = true
    · have he : ∀ hm, verifyMailgunSignatureL ⟨now, toNum, hm⟩ t ts s k
          = (false, some VerifyLog.missingParams) := by
        intro hm
        simp [verifyMailgunSignatureL, hk', hp]
      refine ⟨fun h1 h2 => by rw [he h1, he h2],
        fun hm => by unfold verifyMailgunSignature; rw [he hm],
        fun hkt _ => ?_, fun _ _ hm => by rw [he hm], fun _ hpf _ _ => ?_⟩
      · rw [hkt] at hk'
        exact Bool.noConfusion hk'
      · rw [hpf] at hp
        exact Bool.noConfusion hp
    · have hp' : (strFalsy t || strFalsy ts || sigFalsy s) = false := by
        revert hp
        cases (strFalsy t || strFalsy ts || sigFalsy s) <;> simp
      obtain ⟨⟨ha, hb⟩, hc⟩ :
          (strFalsy t = false ∧ strFalsy ts = false) ∧ sigFalsy s = false := by
        simpa [Bool.or_eq_false_iff] using hp'
      have hn : toNum (ts.getD "") = none := by
        rcases h with h | h | h | h | h
        · rw [h] at hk'
          exact Bool.noConfusion hk'
        · rw [h] at ha
          exact Bool.noConfusion ha
        · rw [h] at hb
          exact Bool.noConfusion hb
        · rw [h] at hc
          exact Bool.noConfusion hc
        · exact h
      have he : ∀ hm, verifyMailgunSignatureL ⟨now, toNum, hm⟩ t ts s k
          = (false, some VerifyLog.invalidTimestamp) := by
        intro hm
        simp [verifyMailgunSignatureL, hk', hp', hn]
      refine ⟨fun h1 h2 => by rw [he h1, he h2],
        fun hm => by unfold verifyMailgunSignature; rw [he hm],
        fun hkt _ => ?_, fun _ hpt hm => ?_, fun _ _ _ hm => by rw [he hm]⟩
      · rw [hkt] at hk'
        exact Bool.noConfusion hk'
      · rw [hpt] at hp'
        exact Bool.noConfusion hp'

/-- Witness for claim C2: a timestamp that does not parse yields `false`
for every HMAC primitive and logs the timestamp check. -/
theorem claim_C2_witness :
    verifyMailgunSignature ⟨5, (fun v => if v = "9" then some 9 else none),
        fun _ _ => "d"⟩ (some "t") (some "x") (some (SigVal.str "sg"))
        (some "k") = false
    ∧ (verifyMailgunSignatureL ⟨5, (fun v => if v = "9" then some 9 else none),
        fun _ _ => "d"⟩ (some "t") (some "x") (some (SigVal.str "sg"))
        (some "k")).2 = some VerifyLog.invalidTimestamp :=
  ⟨(claim_C2_precondition_short_circuit 5
      (fun v => if v = "9" then some 9 else none) (some "t") (some "x")
      (some (SigVal.str "sg")) (some "k")
      (Or.inr (Or.inr (Or.inr (Or.inr (by decide)))))).2.1 (fun _ _ => "d"),
   (claim_C2_precondition_short_circuit 5
      (fun v => if v = "9" then some 9 else none) (some "t") (some "x")
      (some (SigVal.str "sg")) (some "k")
      (Or.inr (Or.inr (Or.inr (Or.inr (by decide)))))).2.2.2.2 (by decide)
      (by decide) (by decide) (fun _ _ => "d")⟩

/-- Claim C3: for every signing key, token and signature (of any shape),
`verifyMailgunSignature` returns `false` whenever the absolute difference
between the current epoch seconds and the numeric timestamp exceeds 900
seconds, for past and future skew alike; at a skew of exactly 900 seconds
the replay check does not reject — the result is exactly the digest
comparison and the expired diagnostic is never logged. -/
theorem claim_C3_replay_window
    (now n : Int) (toNum : String → Option Int) (hm : String → String → String)
    (token : Option String) (sig : Option SigVal) (key : Option String)
    (t ts s k : String)
    (hnum : toNum ts = some n) :
    (900 < (now - n).natAbs →
      verifyMailgunSignature ⟨now, toNum, hm⟩ token (some ts) sig key = false)
    ∧ ((now - n).natAbs = 900 → k ≠ "" → t ≠ "" → ts ≠ "" → s ≠ "" →
      verifyMailgunSignature ⟨now, toNum, hm⟩ (some t) (some ts)
          (some (SigVal.str s)) (some k) = hmacCompare (hm k (ts ++ t)) s
      ∧ (verifyMailgunSignatureL ⟨now, toNum, hm⟩ (some t) (some ts)
          (some (SigVal.str s)) (some k)).2 ≠ some VerifyLog.expired) := by
  constructor
  · intro hgt
    by_cases hk : strFalsy key = true
    · simp [verifyMailgunSignature, verifyMailgunSignatureL, hk]
    · by_cases hp : (strFalsy token || strFalsy (some ts) || sigFalsy sig) = true
      · simp [verifyMailgunSignature, verifyMailgunSignatureL, hk, hp]
      · simp [verifyMailgunSignature, verifyMailgunSignatureL, hk, hp, hnum, hgt]
  · intro h900 hkne htne htsne hsne
    have hL := verify_reaches_compare now n toNum hm t ts s k hkne htne htsne
      hsne hnum (Nat.le_of_eq h900)
    constructor
    · unfold verifyMailgunSignature
      rw [hL]
    · rw [hL]
      by_cases hl : (bufFrom (hm k (ts ++ t))).length = (bufFrom s).length
      · simp [hl]
      · simp [hl]

/-- Witness for claim C3: a 1000-second past skew is rejected, and at
exactly 900 seconds the verifier returns the digest-comparison outcome. -/
theorem claim_C3_witness :
    verifyMailgunSignature ⟨1000, (fun v => if v = "0" then some 0 else none),
        fun _ _ => "d"⟩ (some "t") (some "0") (some (SigVal.str "d"))
        (some "k") = false
    ∧ verifyMailgunSignature ⟨900, (fun v => if v = "0" then some 0 else none),
        fun _ _ => "d"⟩ (some "t") (some "0") (some (SigVal.str "d"))
        (some "k") = hmacCompare "d" "d" :=
  ⟨(claim_C3_replay_window 1000 0 (fun v => if v = "0" then some 0 else none)
      (fun _ _ => "d") (some "t") (some (SigVal.str "d")) (some "k")
      "t" "0" "d" "k" (by decide)).1 (by decide),
   ((claim_C3_replay_window 900 0 (fun v => if v = "0" then some 0 else none)
      (fun _ _ => "d") (some "t") (some (SigVal.str "d")) (some "k")
      "t" "0" "d" "k" (by decide)).2 (by decide) (by decide) (by decide)
      (by decide) (by decide)).1⟩

/-- Inversion of a successful `processEmailData` run. -/
theorem processEmailData_ok (env : ProcessEnv) (b : InboundBody)
    (files : Option (List FileDesc)) (out : ProcessOut)
    (hok : processEmailData env (some { body := some b, files := files })
      = Except.ok out) :
    ∃ hobj, buildHeadersObj (parseHeaders env.jsonParse b.messageHeaders)
        = Except.ok hobj
      ∧ out = mkEmailOut env b files hobj := by
  simp only [processEmailData] at hok
  cases hh : buildHeadersObj (parseHeaders env.jsonParse b.messageHeaders) with
  | error e =>
    rw [hh] at hok
    exact Except.noConfusion hok
  | ok hobj =>
    rw [hh] at hok
    injection hok with h2
    subst h2
    exact ⟨hobj, rfl, rfl⟩

/-- Environment for the claim C4 failing input: `JSON.parse` behaves as the
host does on the one string involved — the text `"abc"` (quotes included)
is valid JSON denoting the string `abc`. -/
def envC4 : ProcessEnv :=
  { jsonParse := fun v => if v = "\"abc\"" then some (Jv.str "abc") else none
    toNum := fun _ => none
    dateNowMs := 0
    iso1 := "2024-01-01T00:00:00.000Z"
    iso2 := "2024-01-01T00:00:00.000Z" }

/-- Failing input for claim C4: a present body whose only field is
`message-headers` set to the JSON encoding of a string. -/
def bodyC4 : InboundBody :=
  { token := none, timestamp := none, signature := none, sender := Jv.undef
    fromField := Jv.undef, subject := none, recipient := Jv.undef
    cc := Jv.undef, bodyPlain := none, bodyHtml := none, strippedText := none
    strippedHtml := none, messageHeaders := Jv.str "\"abc\""
    attachmentCount := none }

/-- Claim C4 (code bug): the claim's missing-request direction holds, but
`processEmailData` also throws with the body present when
`message-headers` is the JSON encoding of a string — the tolerant parse
returns the string, `parsedHeaders && parsedHeaders.length > 0` holds, and
`parsedHeaders.forEach` raises an uncaught `TypeError`, contradicting both
the claim and the function's own documentation (which reserves throwing
for a missing body). -/
theorem claim_C4_headers_string_throws :
    processEmailData envC4 (some { body := some bodyC4, files := none })
      = Except.error PErr.typeError
    ∧ processEmailData envC4 none = Except.error PErr.invalidRequest
    ∧ processEmailData envC4 (some { body := none, files := none })
      = Except.error PErr.invalidRequest :=
  ⟨rfl, rfl, rfl⟩

/-- Claim C6 (amended): for every inbound payload with no uploaded files,
`processEmailData` yields an empty `attachments` sequence and an
`attachmentCount` equal to `Number(rawField || 0)`: `0` when the raw field
is absent or empty, and otherwise the numeric coercion of the raw string —
which is `NaN` (`none`), not `0`, for a non-numeric value; the count is a
pass-through, never cross-checked against the number of files. -/
theorem claim_C6_attachment_count_passthrough
    (env : ProcessEnv) (b : InboundBody) (files : Option (List FileDesc))
    (out : ProcessOut)
    (hfiles : files = none ∨ files = some [])
    (hok : processEmailData env (some { body := some b, files := files })
      = Except.ok out) :
    out.emailData.attachments = []
    ∧ out.emailData.attachmentCount = jsNumberCoerce env.toNum b.attachmentCount
    ∧ (b.attachmentCount = none ∨ b.attachmentCount = some "" →
        out.emailData.attachmentCount = some 0)
    ∧ (∀ s, b.attachmentCount = some s → s ≠ "" →
        out.emailData.attachmentCount = env.toNum s) := by
  obtain ⟨hobj, hh, rfl⟩ := processEmailData_ok env b files out hok
  refine ⟨?_, rfl, ?_, ?_⟩
  · rcases hfiles with rfl | rfl <;> rfl
  · rintro (hac | hac) <;>
      simp [mkEmailOut, jsNumberCoerce, hac,
        show ("" : String).isEmpty = true from rfl]
  · intro s hac hne
    simp [mkEmailOut, jsNumberCoerce, hac, isEmpty_false_of_ne s hne]

/-- Environment for the claim C6 input: `Number` maps the non-numeric
string to `NaN`. -/
def envC6 : ProcessEnv :=
  { jsonParse := fun _ => none
    toNum := fun _ => none
    dateNowMs := 0
    iso1 := "2024-01-01T00:00:00.000Z"
    iso2 := "2024-01-01T00:00:00.000Z" }

/-- Concrete inbound body for claim C6: no files, `attachment-count` set
to the non-numeric string `abc`. -/
def bodyC6 : InboundBody :=
  { token := none, timestamp := none, signature := none, sender := Jv.undef
    fromField := Jv.undef, subject := none, recipient := Jv.undef
    cc := Jv.undef, bodyPlain := none, bodyHtml := none, strippedText := none
    strippedHtml := none, messageHeaders := Jv.undef
    attachmentCount := some "abc" }

/-- Counterexample to claim C6 as stated: with no files and the
non-numeric `attachment-count` `"abc"`, the record has `attachments = []`
but `attachmentCount = NaN` (`none`), not the claimed default `0`. -/
theorem claim_C6_counterexample :
    (processEmailData envC6 (some { body := some bodyC6, files := none })).map
        (fun o => (o.emailData.attachments, o.emailData.attachmentCount))
      = Except.ok ([], none)
    ∧ (none : Option Int) ≠ some 0 :=
  ⟨rfl, by decide⟩

/-- Witness for the amended claim C6 at the concrete input. -/
theorem claim_C6_witness :
    processEmailData envC6 (some { body := some bodyC6, files := none })
      = Except.ok (mkEmailOut envC6 bodyC6 none [])
    ∧ (mkEmailOut envC6 bodyC6 none []).emailData.attachments = []
    ∧ (mkEmailOut envC6 bodyC6 none []).emailData.attachmentCount
      = envC6.toNum "abc" :=
  ⟨rfl,
   (claim_C6_attachment_count_passthrough envC6 bodyC6 none _ (Or.inl rfl)
     rfl).1,
   (claim_C6_attachment_count_passthrough envC6 bodyC6 none _ (Or.inl rfl)
     rfl).2.2.2 "abc" rfl (by decide)⟩

/-- Environment for the claim C7 counterexample: the two successive
`new Date().toISOString()` reads of lines 462-463 straddle a millisecond
tick and render differently. -/
def envC7 : ProcessEnv :=
  { jsonParse := fun _ => none
    toNum := fun _ => none
    dateNowMs := 0
    iso1 := "2024-01-01T00:00:00.000Z"
    iso2 := "2024-01-01T00:00:00.001Z" }

/-- Same environment with the two clock reads rendering equally. -/
def envC7eq : ProcessEnv :=
  { envC7 with iso2 := "2024-01-01T00:00:00.000Z" }

/-- Minimal inbound body for claim C7. -/
def bodyC7 : InboundBody :=
  { token := none, timestamp := none, signature := none, sender := Jv.undef
    fromField := Jv.undef, subject := none, recipient := Jv.undef
    cc := Jv.undef, bodyPlain := none, bodyHtml := none, strippedText := none
    strippedHtml := none, messageHeaders := Jv.undef, attachmentCount := none }

/-- Counterexample to claim C7 as stated: the source evaluates
`new Date().toISOString()` twice (lines 462-463); when the reads straddle
a millisecond tick, `receivedAt` and `timestamp` differ at construction. -/
theorem claim_C7_counterexample :
    (processEmailData envC7 (some { body := some bodyC7, files := none })).map
        (fun o => (o.emailData.receivedAt, o.emailData.timestamp))
      = Except.ok ("2024-01-01T00:00:00.000Z", "2024-01-01T00:00:00.001Z")
    ∧ "2024-01-01T00:00:00.000Z" ≠ "2024-01-01T00:00:00.001Z" :=
  ⟨rfl, by decide⟩

/-- Claim C7 (amended): `receivedAt` and `timestamp` are both set to
processing-time wall-clock reads (the two successive
`new Date().toISOString()` calls), so they are equal whenever the two
reads render the same instant; the code does not itself enforce a single
shared read. -/
theorem claim_C7_timestamps
    (env : ProcessEnv) (b : InboundBody) (files : Option (List FileDesc))
    (out : ProcessOut)
    (hok : processEmailData env (some { body := some b, files := files })
      = Except.ok out) :
    out.emailData.receivedAt = env.iso1
    ∧ out.emailData.timestamp = env.iso2
    ∧ (env.iso1 = env.iso2 →
        out.emailData.receivedAt = out.emailData.timestamp) := by
  obtain ⟨hobj, hh, rfl⟩ := processEmailData_ok env b files out hok
  exact ⟨rfl, rfl, fun he => by simp [mkEmailOut, he]⟩

/-- Witness for the amended claim C7: equal clock reads give equal
fields. -/
theorem claim_C7_witness :
    processEmailData envC7eq (some { body := some bodyC7, files := none })
      = Except.ok (mkEmailOut envC7eq bodyC7 none [])
    ∧ (mkEmailOut envC7eq bodyC7 none []).emailData.receivedAt
      = (mkEmailOut envC7eq bodyC7 none []).emailData.timestamp :=
  ⟨rfl, (claim_C7_timestamps envC7eq bodyC7 none _ rfl).2.2 rfl⟩

/-- Claim C8: for every request body processed successfully, the `from`
field of the record equals the address extracted from the `sender` field,
falling back to the `from` field (`extractEmail(sender || from)`), where
extraction returns the trimmed interior of the first match of the
angle-bracket pattern `/<(.+?)>/` when one exists, otherwise the trimmed
whole input, and the empty string for empty or non-string input. -/
theorem claim_C8_from_extraction
    (env : ProcessEnv) (b : InboundBody) (files : Option (List FileDesc))
    (out : ProcessOut)
    (hok : processEmailData env (some { body := some b, files := files })
      = Except.ok out) :
    out.emailData.fromAddr = extractEmail (jvOr b.sender b.fromField)
    ∧ (∀ s int, angleInterior s.data = some int →
        extractEmail (Jv.str s) = jsTrim (String.mk int))
    ∧ (∀ s, angleInterior s.data = none → extractEmail (Jv.str s) = jsTrim s)
    ∧ (∀ v, (∀ s, v ≠ Jv.str s) → extractEmail v = "")
    ∧ extractEmail (Jv.str "") = "" := by
  obtain ⟨hobj, hh, rfl⟩ := processEmailData_ok env b files out hok
  refine ⟨rfl, ?_, ?_, ?_, rfl⟩
  · intro s int hmatch
    by_cases hse : s.isEmpty = true
    · have hs0 : s = "" := (String.isEmpty_iff s).1 hse
      subst hs0
      simp [angleInterior, show ("" : String).data = [] from rfl] at hmatch
    · have hse' : s.isEmpty = false := by
        revert hse
        cases s.isEmpty <;> simp
      simp [extractEmail, hse', hmatch]
  · intro s hnone
    by_cases hse : s.isEmpty = true
    · have hs0 : s = "" := (String.isEmpty_iff s).1 hse
      subst hs0
      rfl
    · have hse' : s.isEmpty = false := by
        revert hse
        cases s.isEmpty <;> simp
      simp [extractEmail, hse', hnone]
  · intro v hv
    cases v with
    | str s => exact absurd rfl (hv s)
    | undef => rfl
    | nul => rfl
    | boolean b2 => rfl
    | num n => rfl
    | arr xs => rfl

/-- Environment for the claim C8 witness. -/
def envC8 : ProcessEnv :=
  { jsonParse := fun _ => none
    toNum := fun _ => none
    dateNowMs := 0
    iso1 := "2024-01-01T00:00:00.000Z"
    iso2 := "2024-01-01T00:00:00.000Z" }

/-- Inbound body for the claim C8 witness: a display-name `sender` and an
absent `from`. -/
def bodyC8 : InboundBody :=
  { token := none, timestamp := none, signature := none
    sender := Jv.str "Jane Doe <jane@example.com>"
    fromField := Jv.undef, subject := none, recipient := Jv.undef
    cc := Jv.undef, bodyPlain := none, bodyHtml := none, strippedText := none
    strippedHtml := none, messageHeaders := Jv.undef, attachmentCount := none }

/-- Witness for claim C8 at a concrete input. -/
theorem claim_C8_witness :
    processEmailData envC8 (some { body := some bodyC8, files := none })
      = Except.ok (mkEmailOut envC8 bodyC8 none [])
    ∧ (mkEmailOut envC8 bodyC8 none []).emailData.fromAddr
      = extractEmail (jvOr bodyC8.sender bodyC8.fromField)
    ∧ extractEmail (jvOr bodyC8.sender bodyC8.fromField) = "jane@example.com" :=
  ⟨rfl, (claim_C8_from_extraction envC8 bodyC8 none _ rfl).1, by decide⟩

/-- No-separator strings split into a single part. -/
theorem splitOnChar_no_sep (sep : Char) (cs : List Char) (h : sep ∉ cs) :
    splitOnChar sep cs = [cs] := by
  induction cs with
  | nil => rfl
  | cons c rest ih =>
    have hc : ¬ c = sep := fun he => h (he ▸ List.mem_cons_self c rest)
    have hr : sep ∉ rest := fun hm => h (List.mem_cons_of_mem _ hm)
    simp [splitOnChar, hc, ih hr]

/-- Claim C10 (amended): attachments are the per-file records of the
mapping callback; for every uploaded file whose `originalname` is a
non-empty string containing no `.` character, the `extension` equals the
entire original filename lower-cased (not `null`); and `extension` is
`null` exactly when `originalname` is absent or the empty string (the
falsy cases of the source's conditional). -/
theorem claim_C10_extension
    (env : ProcessEnv) (b : InboundBody) (files : Option (List FileDesc))
    (out : ProcessOut)
    (hok : processEmailData env (some { body := some b, files := files })
      = Except.ok out) :
    out.emailData.attachments
      = (files.getD []).enum.map (fun p => mkAttachment env.dateNowMs p.1 p.2)
    ∧ (∀ (d : Int) (i : Nat) (f : FileDesc) (nm : String),
        f.originalname = some nm → nm ≠ "" → '.' ∉ nm.data →
        (mkAttachment d i f).extension = some (jsToLower nm)
        ∧ (mkAttachment d i f).extension ≠ none)
    ∧ (∀ (d : Int) (i : Nat) (f : FileDesc),
        ((mkAttachment d i f).extension = none
          ↔ strFalsy f.originalname = true)) := by
  obtain ⟨hobj, hh, rfl⟩ := processEmailData_ok env b files out hok
  refine ⟨rfl, ?_, ?_⟩
  · intro d i f nm hnm hne hnd
    have hfalse2 : strFalsy (some nm) = false := isEmpty_false_of_ne nm hne
    have hext : (mkAttachment d i f).extension = some (jsToLower nm) := by
      simp only [mkAttachment, hnm, hfalse2, Option.getD_some,
        Bool.false_eq_true, if_false, splitOnChar_no_sep '.' nm.data hnd]
      rfl
    exact ⟨hext, by rw [hext]; exact Option.noConfusion⟩
  · intro d i f
    cases hf : strFalsy f.originalname with
    | true => simp [mkAttachment, hf]
    | false => simp [mkAttachment, hf]

/-- File descriptor with a present but empty `originalname`. -/
def fileC10 : FileDesc :=
  { originalname := some "", mimetype := none, size := none, encoding := none
    fieldname := none, buffer := none }

/-- File descriptor with a dot-free `originalname` for the C10 witness. -/
def fileC10w : FileDesc :=
  { originalname := some "README", mimetype := none, size := none
    encoding := none, fieldname := none, buffer := none }

/-- Environment for the claim C10 inputs. -/
def envC10 : ProcessEnv :=
  { jsonParse := fun _ => none
    toNum := fun _ => none
    dateNowMs := 0
    iso1 := "2024-01-01T00:00:00.000Z"
    iso2 := "2024-01-01T00:00:00.000Z" }

/-- Inbound body for the claim C10 inputs. -/
def bodyC10 : InboundBody :=
  { token := none, timestamp := none, signature := none, sender := Jv.undef
    fromField := Jv.undef, subject := none, recipient := Jv.undef
    cc := Jv.undef, bodyPlain := none, bodyHtml := none, strippedText := none
    strippedHtml := none, messageHeaders := Jv.undef, attachmentCount := none }

/-- Counterexample to claim C10 as stated: a file whose `originalname` is
the empty string is present (not absent), yet its `extension` is `null`. -/
theorem claim_C10_counterexample :
    (mkAttachment 0 0 fileC10).extension = none
    ∧ fileC10.originalname ≠ none
    ∧ (processEmailData envC10
        (some { body := some bodyC10, files := some [fileC10] })).map
          (fun o => o.emailData.attachments.map (fun a => a.extension))
      = Except.ok [none] :=
  ⟨rfl, by decide, rfl⟩

/-- Witness for the amended claim C10 at a concrete dot-free filename. -/
theorem claim_C10_witness :
    processEmailData envC10
        (some { body := some bodyC10, files := some [fileC10w] })
      = Except.ok (mkEmailOut envC10 bodyC10 (some [fileC10w]) [])
    ∧ (mkAttachment 3 0 fileC10w).extension = some (jsToLower "README")
    ∧ jsToLower "README" = "readme"
    ∧ ((mkAttachment 3 0 fileC10w).extension = none
        ↔ strFalsy fileC10w.originalname = true) :=
  ⟨rfl,
   ((claim_C10_extension envC10 bodyC10 (some [fileC10w]) _ rfl).2.1 3 0
     fileC10w "README" rfl (by decide) (by decide)).1,
   by decide,
   (claim_C10_extension envC10 bodyC10 (some [fileC10w]) _ rfl).2.2 3 0
     fileC10w⟩

/-- Claim C9: for every parsed body, `verifyRequestSignature` locates the
signature triple by preferring the nested signature object's `token`,
`timestamp` and `signature` fields (event-webhook shape) and otherwise
using the top-level fields (inbound-webhook shape); absent fields are
passed to verification as `undefined` (`none`) rather than raising an
error — the adapter is total and delegates the located triple to
`verifyMailgunSignature`. -/
theorem claim_C9_signature_location
    (env : VerifyEnv) (b : WebhookBody) (key : Option String) :
    verifyRequestSignature env (some b) key
      = verifyMailgunSignature env (extractedToken b) (extractedTimestamp b)
          (extractedSignature b) key
    ∧ (∀ t ts s, b.signature = some (SigVal.obj t ts s) →
        extractedToken b = jsOrStr t b.token
        ∧ extractedTimestamp b = jsOrStr ts b.timestamp
        ∧ extractedSignature b
          = (if strFalsy s then some (SigVal.obj t ts s)
             else s.map SigVal.str))
    ∧ ((∀ t ts s, b.signature ≠ some (SigVal.obj t ts s)) →
        extractedToken b = b.token
        ∧ extractedTimestamp b = b.timestamp
        ∧ extractedSignature b = b.signature)
    ∧ (b.signature = none → b.token = none → b.timestamp = none →
        extractedToken b = none ∧ extractedTimestamp b = none
        ∧ extractedSignature b = none)
    ∧ verifyRequestSignature env none key = false := by
  refine ⟨rfl, ?_, ?_, ?_, rfl⟩
  · intro t ts s hsig
    exact ⟨by simp [extractedToken, hsig],
      by simp [extractedTimestamp, hsig],
      by simp [extractedSignature, hsig]⟩
  · intro hnot
    cases hsig : b.signature with
    | none =>
      exact ⟨by simp [extractedToken, hsig],
        by simp [extractedTimestamp, hsig],
        by simp [extractedSignature, hsig]⟩
    | some sv =>
      cases sv with
      | str s =>
        exact ⟨by simp [extractedToken, hsig],
          by simp [extractedTimestamp, hsig],
          by simp [extractedSignature, hsig]⟩
      | obj t ts s => exact absurd hsig (hnot t ts s)
  · intro hsig htok hts
    exact ⟨by simp [extractedToken, hsig, htok],
      by simp [extractedTimestamp, hsig, hts],
      by simp [extractedSignature, hsig]⟩

/-- Verifier environment for the claim C9 witness. -/
def envV9 : VerifyEnv :=
  ⟨0, (fun _ => none), fun _ _ => ""⟩

/-- Webhook body for the claim C9 witness: a nested signature object whose
`token` and `signature` are set but whose `timestamp` is absent, over
top-level `token` and `timestamp` fields. -/
def bC9 : WebhookBody :=
  { token := some "tt", timestamp := some "ts0"
    signature := some (SigVal.obj (some "nt") none (some "ns"))
    eventData := none }

/-- Witness for claim C9: the nested token wins, the absent nested
timestamp falls back to the top level, and the nested signature string is
delegated. -/
theorem claim_C9_witness :
    verifyRequestSignature envV9 (some bC9) (some "k")
      = verifyMailgunSignature envV9 (extractedToken bC9)
          (extractedTimestamp bC9) (extractedSignature bC9) (some "k")
    ∧ extractedToken bC9 = some "nt"
    ∧ extractedTimestamp bC9 = some "ts0"
    ∧ extractedSignature bC9 = some (SigVal.str "ns") :=
  ⟨(claim_C9_signature_location envV9 bC9 (some "k")).1,
   (((claim_C9_signature_location envV9 bC9 (some "k")).2.1 (some "nt") none
      (some "ns") rfl).1).trans (by decide),
   (((claim_C9_signature_location envV9 bC9 (some "k")).2.1 (some "nt") none
      (some "ns") rfl).2.1).trans (by decide),
   (((claim_C9_signature_location envV9 bC9 (some "k")).2.1 (some "nt") none
      (some "ns") rfl).2.2).trans (by decide)⟩

/-- Claim C5 (amended): `mailgunWebhook` reports an error outcome (returns
`null`) for every body whose event-data object lacks an `event` value or
carries an empty one — and likewise when the body itself is missing; when
the body is present, the signature verifies, and the event value is
non-empty but not one of the eight recognized kinds, the returned record
has status `"unknown"` and `fullEventData` equal to the raw event-data
object verbatim. -/
theorem claim_C5_unknown_event
    (env : HookEnv) (req : HookReq) (key : Option String) :
    (req.body = none → (mailgunWebhook env req key).retVal = none)
    ∧ (∀ b, req.body = some b →
        (b.eventData = none
          ∨ ∃ ed, b.eventData = some ed
              ∧ (ed.event = none ∨ ed.event = some "")) →
        (mailgunWebhook env req key).retVal = none)
    ∧ (∀ b ed ev, req.body = some b →
        verifyMailgunSignature env.verify (extractedToken b)
          (extractedTimestamp b) (extractedSignature b) key = true →
        b.eventData = some ed → ed.event = some ev → ev ≠ "" →
        ev ∉ knownEvents →
        (mailgunWebhook env req key).retVal.map
            (fun r => (r.status, r.fullEventData))
          = some (some "unknown", some ed)) := by
  refine ⟨?_, ?_, ?_⟩
  · intro hb
    simp [mailgunWebhook, hb]
  · intro b hb hed
    by_cases hv : verifyMailgunSignature env.verify (extractedToken b)
        (extractedTimestamp b) (extractedSignature b) key = true
    · rcases hed with hed | ⟨ed, hed, hev⟩
      · simp [mailgunWebhook, hb, hv, hed, emptyEventData]
      · rcases hev with hev | hev <;>
          simp [mailgunWebhook, hb, hv, hed, hev,
            show ("" : String).isEmpty = true from rfl]
    · have hv' : verifyMailgunSignature env.verify (extractedToken b)
          (extractedTimestamp b) (extractedSignature b) key = false := by
        revert hv
        cases verifyMailgunSignature env.verify (extractedToken b)
          (extractedTimestamp b) (extractedSignature b) key <;> simp
      simp [mailgunWebhook, hb, hv']
  · intro b ed ev hb hv hed hev hne hnk
    have hne' : ev.isEmpty = false := isEmpty_false_of_ne ev hne
    simp only [knownEvents, List.mem_cons, List.mem_singleton,
      not_or] at hnk
    obtain ⟨n1, n2, n3, n4, n5, n6, n7, n8⟩ := hnk
    simp [mailgunWebhook, hb, hv, hed, hev, hne', n1, n2, n3, n4, n5, n6,
      n7, n8]

/-- Verifier environment for the claim C5 inputs: the digest primitive
returns `sg` so the supplied signature matches. -/
def venvC5 : VerifyEnv :=
  ⟨100, (fun v => if v = "100" then some 100 else none), fun _ _ => "sg"⟩

/-- Webhook environment for the claim C5 inputs. -/
def envC5 : HookEnv :=
  { verify := venvC5, msToIso := fun _ => "iso", nowSecF := 100
    nowIso := "now", synthCorr := "corr" }

/-- Event data with a present but empty `event` value. -/
def edC5 : EventData :=
  { emptyEventData with event := some "" }

/-- Event-webhook body for the claim C5 counterexample: a verifiable
nested signature object and an event-data object whose `event` is the
empty string. -/
def bodyC5 : WebhookBody :=
  { token := none, timestamp := none
    signature := some (SigVal.obj (some "tk") (some "100") (some "sg"))
    eventData := some edC5 }

/-- Request carrying `bodyC5`. -/
def reqC5 : HookReq :=
  { xRequestId := none, xCorrelationId := none, body := some bodyC5 }

/-- Counterexample to claim C5 as stated: an event value that is present
but empty is treated by `if (!event)` like a missing one — the webhook
returns `null` with HTTP 200, not a record with status `"unknown"`, even
though the signature verifies. -/
theorem claim_C5_counterexample :
    verifyMailgunSignature venvC5 (extractedToken bodyC5)
        (extractedTimestamp bodyC5) (extractedSignature bodyC5)
        (some "k") = true
    ∧ edC5.event = some ""
    ∧ (mailgunWebhook envC5 reqC5 (some "k")).retVal = none
    ∧ (mailgunWebhook envC5 reqC5 (some "k")).httpStatus = 200 :=
  ⟨rfl, rfl, rfl, rfl⟩

/-- Event data with the unrecognized kind `bazinga`. -/
def edC5w : EventData :=
  { emptyEventData with event := some "bazinga" }

/-- Event-webhook body for the claim C5 witness. -/
def bodyC5w : WebhookBody :=
  { bodyC5 with eventData := some edC5w }

/-- Request carrying `bodyC5w`. -/
def reqC5w : HookReq :=
  { xRequestId := none, xCorrelationId := none, body := some bodyC5w }

/-- Witness for the amended claim C5: the unrecognized kind `bazinga`
yields status `"unknown"` with the raw event data attached, and the empty
event value yields `null`. -/
theorem claim_C5_witness :
    (mailgunWebhook envC5 reqC5w (some "k")).retVal.map
        (fun r => (r.status, r.fullEventData))
      = some (some "unknown", some edC5w)
    ∧ (mailgunWebhook envC5 reqC5 (some "k")).retVal = none :=
  ⟨(claim_C5_unknown_event envC5 reqC5w (some "k")).2.2 bodyC5w edC5w
      "bazinga" rfl rfl rfl rfl (by decide) (by decide),
   (claim_C5_unknown_event envC5 reqC5 (some "k")).2.1 bodyC5 rfl
      (Or.inr ⟨edC5, rfl, Or.inr rfl⟩)⟩
